import Mathlib

/-!
Verification of the FinBoard core against its specification.

Shallow embedding of the core of the FinBoard dashboard:
the API service layer (response cache, fetch orchestration with CORS-proxy
fallback, dot/bracket path resolution, JSON structure exploration, data
transformation) and the adaptive cache-duration policy of the widget
container.  JavaScript values that can be `undefined` are modelled with
`Option`; `Option.none` stands for `undefined`.  JavaScript numbers are
modelled by `ℚ` (the JSON payloads of interest carry finite decimal
numbers; NaN and the infinities have no image in this model and are
represented through `Option` where they can arise, e.g. parseFloat).
Timestamps and durations are `ℚ` in milliseconds, matching Date.now()
arithmetic where fractional durations can arise from second-to-ms scaling.
-/

/-- The JSON value model: the recursive sum type of §3 of the spec.
Objects are insertion-ordered association lists, as JavaScript objects are. -/
inductive JSONValue where
  | null
  | bool (b : Bool)
  | num (q : ℚ)
  | str (s : String)
  | arr (elems : List JSONValue)
  | obj (fields : List (String × JSONValue))

/-- JavaScript truthiness of a JSON value: null, false, 0 and the empty
string are falsy; every array and object is truthy. -/
def jsTruthy : JSONValue → Bool
  | .null => false
  | .bool b => b
  | .num q => q != 0
  | .str s => s != ""
  | .arr _ => true
  | .obj _ => true

/-- Association-list lookup, the JS Map.get / object property read. -/
def assocGet {α : Type} (l : List (String × α)) (k : String) : Option α :=
  (l.find? (fun p => p.1 == k)).map (fun p => p.2)

/-- Association-list update, the JS Map.set / property assignment: an
existing key keeps its position and gets the new value, a new key is
appended at the end. -/
def assocSet {α : Type} : List (String × α) → String → α → List (String × α)
  | [], k, v => [(k, v)]
  | (k₀, v₀) :: rest, k, v =>
      if k₀ == k then (k, v) :: rest else (k₀, v₀) :: assocSet rest k v

/-- Association-list removal, the JS Map.delete. -/
def assocDelete {α : Type} (l : List (String × α)) (k : String) : List (String × α) :=
  l.filter (fun p => p.1 != k)

/-- Digits to a natural number, for bracket indices. -/
def digitsToNat (cs : List Char) : Nat :=
  cs.foldl (fun n c => 10 * n + (c.toNat - 48)) 0

/-- Property read current[key] on a JSON value (never null here).
Objects look the key up; arrays accept canonical numeric-string keys.
Properties of primitives beyond the JSON model (string length and
character indices, methods) are outside the JSON value model and read
as absent. -/
def jsGet (v : JSONValue) (key : String) : Option JSONValue :=
  match v with
  | .obj fs => assocGet fs key
  | .arr xs =>
      match key.toNat? with
      | some i => if toString i == key then xs.get? i else none
      | none => none
  | _ => none

/-- Optional-chaining read current?.[key]: null and undefined read as
undefined. -/
def optChainGet (cur : Option JSONValue) (key : String) : Option JSONValue :=
  match cur with
  | none => none
  | some .null => none
  | some v => jsGet v key

/-- Optional-chaining numeric index current?.[i]: arrays index, objects
read the decimal string of i, everything else is absent. -/
def optChainIdx (cur : Option JSONValue) (i : Nat) : Option JSONValue :=
  match cur with
  | none => none
  | some .null => none
  | some (.arr xs) => xs.get? i
  | some (.obj fs) => assocGet fs (toString i)
  | some _ => none

/-- Parse one path segment against the source regex ^(.+)\[(\d+)\]$ :
a segment matches exactly when it ends with a bracketed nonempty digit
run preceded by a nonempty key prefix; greediness of .+ picks the last
opening bracket. -/
def parseArraySeg (s : String) : Option (String × Nat) :=
  match s.data.getLast? with
  | some ']' =>
      let body := s.data.dropLast
      let rev := body.reverse
      let digitsRev := rev.takeWhile (fun c => c.isDigit)
      match rev.drop digitsRev.length with
      | '[' :: pfxRev =>
          if digitsRev.isEmpty || pfxRev.isEmpty then none
          else some (String.mk pfxRev.reverse, digitsToNat digitsRev.reverse)
      | _ => none
  | _ => none

/-- Split a character list on the dot, as String.prototype.split does:
the empty input yields one empty group. -/
def splitDot : List Char → List (List Char)
  | [] => [[]]
  | c :: cs =>
      if c = '.' then [] :: splitDot cs
      else
        match splitDot cs with
        | [] => [[c]]
        | g :: gs => (c :: g) :: gs

/-- The segments of a path string, split on the dot. -/
def pathSegs (path : String) : List String :=
  (splitDot path.data).map String.mk

/-- One reducer step of getNestedValue: bracket segments read the key and
then index; plain segments read the key. -/
def resolveStep (cur : Option JSONValue) (seg : String) : Option JSONValue :=
  match parseArraySeg seg with
  | some (arrayKey, index) => optChainIdx (optChainGet cur arrayKey) index
  | none => optChainGet cur seg

/-- getNestedValue from apiService.js: a falsy object or an empty path is
returned unchanged; otherwise the dot-split segments are folded over the
value with optional chaining. -/
def getNestedValue (v : JSONValue) (path : String) : Option JSONValue :=
  if path == "" || !jsTruthy v then some v
  else (pathSegs path).foldl resolveStep (some v)

/-- A cache entry of apiService.js: the cached payload, the time it was
stored, and its expiry instant, all times in milliseconds. -/
structure CacheEntry where
  data : JSONValue
  timestamp : ℚ
  expiresAt : ℚ

/-- The per-URL response cache: the module-level apiCache Map, keyed by
the request URL verbatim. -/
abbrev Cache : Type := List (String × CacheEntry)

/-- getCachedData from apiService.js, with the clock passed explicitly:
a missing entry misses; an entry with now strictly past expiresAt is
deleted and misses; otherwise the stored payload is returned.  The second
component is the cache after the lookup (the lookup can evict). -/
def getCachedData (c : Cache) (url : String) (now : ℚ) : Option JSONValue × Cache :=
  match assocGet c url with
  | none => (none, c)
  | some e => if e.expiresAt < now then (none, assocDelete c url) else (some e.data, c)

/-- setCachedData from apiService.js: stores the payload with
expiresAt = now + duration, duration in milliseconds. -/
def setCachedData (c : Cache) (url : String) (d : JSONValue) (duration : ℚ) (now : ℚ) : Cache :=
  assocSet c url ⟨d, now, now + duration⟩

/-- clearExpiredCache from apiService.js, the periodic sweep: every entry
with now strictly past expiresAt is removed. -/
def clearExpiredCache (c : Cache) (now : ℚ) : Cache :=
  c.filter (fun p => !(p.2.expiresAt < now))

/-- The adaptive cache-duration policy of WidgetContainer.fetchData,
in seconds, from the refresh interval r (seconds) and the skip-cache
flag of a manual refresh. -/
def adaptiveCacheDuration (skipCache : Bool) (r : ℚ) : ℚ :=
  if skipCache then 0
  else if r < 30 then min 5 (r / 3)
  else if r < 120 then r / 4
  else min 30 (r / 4)

/-- The adaptive-duration policy as the specification words it, with every
range condition written out: skip cache gives 0; r below 30 gives
min(5, r/3); r in [30, 120) gives r/4; r at least 120 gives min(30, r/4). -/
def specAdaptiveDuration (skipCache : Bool) (r : ℚ) : ℚ :=
  if skipCache then 0
  else if r < 30 then min 5 (r / 3)
  else if 30 ≤ r ∧ r < 120 then r / 4
  else if 120 ≤ r then min 30 (r / 4)
  else 0

/-- A field mapping of transformAPIData: the selected path and the display
name the widget shows for it. -/
structure FieldMapping where
  path : String
  displayName : String

/-- A display row: a JavaScript object literal built by repeated property
assignment, insertion-ordered, values possibly undefined. -/
abbrev Row : Type := List (String × Option JSONValue)

/-- The row built for one element in the array branch (and for the whole
object in the single-row branch): each field mapping assigns the resolved
value to its display name, in mapping order. -/
def buildRow (fieldMappings : List FieldMapping) (item : JSONValue) : Row :=
  fieldMappings.foldl (fun acc fm => assocSet acc fm.displayName (getNestedValue item fm.path)) []

/-- Leading-float parsing of a string, the parseFloat model: optional
whitespace and sign, then a decimal mantissa needing at least one digit,
then an optional exponent.  Inputs denoting NaN or an infinity have no
image in ℚ and come out absent. -/
def parseLeadingFloat (s : String) : Option ℚ :=
  let cs := s.data.dropWhile (fun c => c = ' ' || c = '\t' || c = '\n' || c = '\r')
  let signed : Bool × List Char :=
    match cs with
    | '-' :: rest => (true, rest)
    | '+' :: rest => (false, rest)
    | rest => (false, rest)
  let ip := signed.2.takeWhile (fun c => c.isDigit)
  let afterInt := signed.2.dropWhile (fun c => c.isDigit)
  let fracAndRest : List Char × List Char :=
    match afterInt with
    | '.' :: rest => (rest.takeWhile (fun c => c.isDigit), rest.dropWhile (fun c => c.isDigit))
    | rest => ([], rest)
  if ip.isEmpty && fracAndRest.1.isEmpty then none
  else
    let mant : ℚ :=
      (digitsToNat ip : ℚ) + (digitsToNat fracAndRest.1 : ℚ) / ((10 : ℚ) ^ fracAndRest.1.length)
    let expo : ℤ :=
      match fracAndRest.2 with
      | 'e' :: rest =>
          match rest with
          | '-' :: r2 => -(digitsToNat (r2.takeWhile (fun c => c.isDigit)) : ℤ)
          | '+' :: r2 => (digitsToNat (r2.takeWhile (fun c => c.isDigit)) : ℤ)
          | r2 => (digitsToNat (r2.takeWhile (fun c => c.isDigit)) : ℤ)
      | 'E' :: rest =>
          match rest with
          | '-' :: r2 => -(digitsToNat (r2.takeWhile (fun c => c.isDigit)) : ℤ)
          | '+' :: r2 => (digitsToNat (r2.takeWhile (fun c => c.isDigit)) : ℤ)
          | r2 => (digitsToNat (r2.takeWhile (fun c => c.isDigit)) : ℤ)
      | _ => 0
    some ((if signed.1 then -mant else mant) * (10 : ℚ) ^ expo)

/-- parseFloat applied to a JSON value: the value is converted to a
string first.  Numbers parse back to themselves; null, booleans and plain
objects stringify to text with no leading float; an array stringifies to
its comma-joined elements, so its parse is the parse of its first element
(an empty array gives the empty string). -/
def parseFloatVal : JSONValue → Option ℚ
  | .null => none
  | .bool _ => none
  | .num q => some q
  | .str s => parseLeadingFloat s
  | .obj _ => none
  | .arr [] => none
  | .arr (x :: _) => parseFloatVal x

/-- parseFloat applied to a possibly-undefined JavaScript value:
undefined stringifies to text with no leading float. -/
def parseFloatJS : Option JSONValue → Option ℚ
  | none => none
  | some v => parseFloatVal v

/-- The chart-branch coercion parseFloat(value) || 0: a value that parses
to NaN (absent here) becomes 0. -/
def numCoerce (v : Option JSONValue) : ℚ :=
  (parseFloatJS v).getD 0

/-- transformAPIData from apiService.js.  Falsy data or an empty mapping
list give the empty result; an array is mapped row by row; a non-array
with chart kind and more than one mapping pivots into name/value points;
anything else becomes a single row. -/
def transformAPIData (data : Option JSONValue) (fieldMappings : List FieldMapping)
    (widgetType : String) : List Row :=
  match data with
  | none => []
  | some d =>
      if !jsTruthy d || fieldMappings.isEmpty then []
      else
        match d with
        | .arr items => items.map (buildRow fieldMappings)
        | other =>
            if widgetType == "chart" && decide (1 < fieldMappings.length) then
              fieldMappings.map (fun fm =>
                [("name", some (.str fm.displayName)),
                 ("value", some (.num (numCoerce (getNestedValue other fm.path))))])
            else [buildRow fieldMappings other]

/-- The array branch as the specification words it: one row per element in
input order, each row binding every display name to the path resolved
against that element. -/
def specTransformArray (items : List JSONValue) (fields : List FieldMapping) : List Row :=
  items.map (fun el =>
    fields.foldl (fun row fm => assocSet row fm.displayName (getNestedValue el fm.path)) [])

/-- The chart pivot as the specification words it: one row per selected
field, of shape name / value with the numeric coercion applied, where a
non-numeric or missing resolved value coerces to 0. -/
def specChartPivot (d : JSONValue) (fields : List FieldMapping) : List Row :=
  fields.map (fun fm =>
    [("name", some (.str fm.displayName)),
     ("value", some (.num ((parseFloatJS (getNestedValue d fm.path)).getD 0)))])

/-- The typeof operator combined with the Array.isArray test used by
exploreJSONPaths: arrays are distinguished first; typeof null is the
string object. -/
def typeOf : JSONValue → String
  | .arr _ => "array"
  | .obj _ => "object"
  | .null => "object"
  | .bool _ => "boolean"
  | .num _ => "number"
  | .str _ => "string"

/-- A descriptor emitted by exploreJSONPaths: the path, the displayed
value (a string such as Array(3) or a braced type name, or the raw leaf
value), the inferred type, and for array descriptors a sample element. -/
structure PathEntry where
  path : String
  value : JSONValue
  type : String
  sample : Option JSONValue

/-- The displayed value for an object child in exploreJSONPaths: objects
and arrays display as their braced type name, leaves display raw. -/
def childDisplay (v : JSONValue) : JSONValue :=
  if typeOf v == "object" || typeOf v == "array" then .str ("\x7b" ++ typeOf v ++ "\x7d")
  else v

/-- The inner explore closure of exploreJSONPaths, with the depth guard
rephrased as fuel: a call at depth d of a walk capped at maxDepth runs
with fuel maxDepth + 1 - d, and the guard depth > maxDepth is exactly
fuel = 0.  A nonempty array emits one synthetic descriptor and recurses
only into element 0; an object emits one descriptor per key in order and
recurses into object or array children; leaves and empty arrays emit
nothing. -/
def exploreFuel : Nat → JSONValue → String → List PathEntry
  | 0, _, _ => []
  | Nat.succ fuel, current, currentPath =>
      match current with
      | .arr (x :: rest) =>
          ⟨currentPath, .str ("Array(" ++ toString (rest.length + 1) ++ ")"), "array", some x⟩
            :: exploreFuel fuel x (currentPath ++ "[0]")
      | .obj fs =>
          fs.flatMap (fun kv =>
            let newPath := if currentPath != "" then currentPath ++ "." ++ kv.1 else kv.1
            let vt := typeOf kv.2
            ⟨newPath, childDisplay kv.2, vt, none⟩
              :: (if vt == "object" || vt == "array"
                  then exploreFuel fuel kv.2 newPath else []))
      | _ => []

/-- exploreJSONPaths from apiService.js, starting at depth 0 with the
given prefix and depth cap. -/
def exploreJSONPaths (obj : JSONValue) (pre : String) (maxDepth : Nat) : List PathEntry :=
  exploreFuel (maxDepth + 1) obj pre

/-- The fixed CORS proxy prefix of apiService.js. -/
def CORS_PROXY : String := "https://cors-anywhere.herokuapp.com/"

/-- An HTTP response as fetchFromAPI observes it: the ok flag (2xx), the
status code and text, and the body as parsed JSON when it parses. -/
structure HttpResponse where
  ok : Bool
  status : Nat
  statusText : String
  jsonBody : Option JSONValue

/-- The outcome of one network attempt: a response, or a thrown transport
error carrying its name (TypeError for network and CORS failures) and
message. -/
inductive FetchOutcome where
  | success (resp : HttpResponse)
  | failure (name : String) (message : String)

/-- The result record of fetchFromAPI.  The failure returns of the source
carry no cached property at all, hence the Option. -/
structure FetchResult where
  success : Bool
  data : Option JSONValue
  error : Option String
  cached : Option Bool

/-- Character-list prefix test, for the substring search below. -/
def startsWithL : List Char → List Char → Bool
  | _, [] => true
  | [], _ :: _ => false
  | c :: cs, p :: ps => c == p && startsWithL cs ps

/-- Character-list substring search: the pattern starts at some suffix. -/
def containsL (pat : List Char) : List Char → Bool
  | [] => startsWithL [] pat
  | c :: cs => startsWithL (c :: cs) pat || containsL pat cs

/-- Substring test on strings, for the message.includes check of the
catch block. -/
def strContains (s pat : String) : Bool :=
  containsL pat.data s.data

/-- One try block of fetchFromAPI around fetch and response.json: a
transport failure rethrows its error; a non-2xx response throws an Error
whose message embeds the status code and status text; a body that is not
JSON throws a SyntaxError; otherwise the parsed body is produced. -/
def attemptFetch (net : String → FetchOutcome) (u : String) :
    Except (String × String) JSONValue :=
  match net u with
  | .failure name msg => .error (name, msg)
  | .success resp =>
      if !resp.ok then
        .error ("Error", "HTTP " ++ toString resp.status ++ ": " ++ resp.statusText)
      else
        match resp.jsonBody with
        | some d => .ok d
        | none => .error ("SyntaxError", "Unexpected end of JSON input")

/-- The try/catch part of fetchFromAPI from apiService.js, entered after a
cache miss, over an explicit network oracle, cache state and clock.
Returns the result record, the cache after the call, and the list of
network requests issued in order.  cacheDuration is in seconds and is
scaled by 1000 at the store, as in the source.  On a first error whose
message contains CORS or whose name is TypeError, the same request is
reissued once through the proxy prefix; successes store into the cache
when useCache is set; the failure returns of the source carry no cached
property. -/
def fetchViaNetwork (net : String → FetchOutcome) (url : String) (useCache : Bool)
    (cacheDuration : ℚ) (c₁ : Cache) (now : ℚ) :
    FetchResult × Cache × List String :=
  match attemptFetch net url with
  | .ok d =>
      let c₂ := if useCache then setCachedData c₁ url d (cacheDuration * 1000) now else c₁
      (⟨true, some d, none, some false⟩, c₂, [url])
  | .error (name, msg) =>
      if strContains msg "CORS" || name == "TypeError" then
        match attemptFetch net (CORS_PROXY ++ url) with
        | .ok d =>
            let c₂ :=
              if useCache then setCachedData c₁ url d (cacheDuration * 1000) now else c₁
            (⟨true, some d, none, some false⟩, c₂, [url, CORS_PROXY ++ url])
        | .error (_, pmsg) =>
            (⟨false, none,
                some ("CORS Error: " ++ pmsg ++ ". Try enabling CORS in your API or use a proxy."),
                none⟩,
              c₁, [url, CORS_PROXY ++ url])
      else
        (⟨false, none, some (if msg == "" then "Failed to fetch data from API" else msg), none⟩,
          c₁, [url])

/-- fetchFromAPI from apiService.js: the cache consultation wrapped
around the network part.  The hit branch is guarded by the truthiness
test `if (cachedData)` of the source, so only a truthy cached payload
returns immediately with the cached flag set and no request issued; a
missing entry, an expired entry (whose lookup evicts it), and a falsy
cached payload (null, false, 0, the empty string) all fall through to
the network part. -/
def fetchFromAPI (net : String → FetchOutcome) (url : String) (useCache : Bool)
    (cacheDuration : ℚ) (cache : Cache) (now : ℚ) :
    FetchResult × Cache × List String :=
  match (if useCache then getCachedData cache url now else (none, cache)) with
  | (some d, c₁) =>
      if jsTruthy d then (⟨true, some d, none, some true⟩, c₁, [])
      else fetchViaNetwork net url useCache cacheDuration c₁ now
  | (none, c₁) => fetchViaNetwork net url useCache cacheDuration c₁ now

/-- A network on which the direct request gets a non-2xx response whose
status text mentions CORS, while the proxied request succeeds.  Used to
exhibit the retry-classification behavior of the catch block. -/
def corsStatusNet : String → FetchOutcome := fun u =>
  if u == CORS_PROXY ++ "https://x.test/api" then
    .success ⟨true, 200, "OK", some (.num 1)⟩
  else
    .success ⟨false, 403, "CORS Forbidden", none⟩

/-- A network that always answers 404 Not Found, a plain non-2xx response
with no CORS mention anywhere. -/
def plainErrorNet : String → FetchOutcome := fun _ =>
  .success ⟨false, 404, "Not Found", none⟩

/-! Helper lemmas. -/

/-- Reading back the key just set yields the stored value. -/
theorem assocGet_assocSet_self {α : Type} (l : List (String × α)) (k : String) (v : α) :
    assocGet (assocSet l k v) k = some v := by
  induction l with
  | nil => simp [assocGet, assocSet]
  | cons hd tl ih =>
      obtain ⟨k₀, v₀⟩ := hd
      by_cases h : k₀ == k
      · simp [assocSet, h, assocGet]
      · simp only [assocSet, h, if_neg]
        simpa [assocGet, List.find?, h] using ih

/-- Reading a deleted key misses. -/
theorem assocGet_assocDelete_self {α : Type} (l : List (String × α)) (k : String) :
    assocGet (assocDelete l k) k = none := by
  induction l with
  | nil => rfl
  | cons hd tl ih =>
      obtain ⟨k₀, v₀⟩ := hd
      by_cases h : k₀ = k
      · simpa [assocDelete, List.filter_cons, h] using ih
      · have hb : ((k₀, v₀).1 != k) = true := by simp [h]
        simp only [assocDelete, List.filter_cons, hb, if_pos]
        simp only [assocDelete] at ih
        simp [assocGet, List.find?_cons, h]

/-- A resolve step on undefined stays undefined. -/
theorem resolveStep_none (seg : String) : resolveStep none seg = none := by
  unfold resolveStep
  cases parseArraySeg seg with
  | none => rfl
  | some p => obtain ⟨k, i⟩ := p; rfl

/-- Folding resolve steps from undefined stays undefined. -/
theorem foldl_resolveStep_none (l : List String) :
    l.foldl resolveStep none = none := by
  induction l with
  | nil => rfl
  | cons s tl ih => simpa [resolveStep_none] using ih

/-! Claim theorems. -/

/-- C8: for every JSON value V, resolve(V, "") returns V unchanged; the
empty path (the only falsy path string) is a pass-through. -/
theorem getNestedValue_empty_path (v : JSONValue) : getNestedValue v "" = some v := by
  simp [getNestedValue]

/-- C5 counterexample: at the falsy root 0 with path "a", the single
intermediate lookup is applied to a value that is neither object nor
array and yields absent, yet getNestedValue returns the root value
unchanged rather than absent, because of the falsy-root guard. -/
theorem getNestedValue_falsy_root_counterexample :
    resolveStep (some (.num 0)) "a" = none ∧
    getNestedValue (.num 0) "a" = some (.num 0) := ⟨rfl, rfl⟩

/-- C5 amended: for a truthy root V and a non-empty path p, whenever the
step-by-step resolution hits a failure at some prefix of the segments
(a missing key, a lookup on a non-container, or an index out of range,
all of which make the fold hit undefined), the whole resolution returns
absent rather than an error; a falsy root is instead returned unchanged.
The two concrete examples of the claim hold as stated. -/
theorem getNestedValue_absent_propagation (v : JSONValue) (p : String)
    (hp : p ≠ "") (hv : jsTruthy v = true)
    (h : ∃ i, ((pathSegs p).take i).foldl resolveStep (some v) = none) :
    getNestedValue v p = none ∧
    getNestedValue (.obj [("a", .obj [("b", .arr [.num 10, .num 20])])]) "a.b[1]"
      = some (.num 20) ∧
    getNestedValue (.obj [("a", .num 1)]) "a.b" = none := by
  refine ⟨?_, rfl, rfl⟩
  obtain ⟨i, hi⟩ := h
  have hpb : (p == "") = false := beq_eq_false_iff_ne.mpr hp
  rw [getNestedValue, hpb, hv]
  simp only [Bool.not_true, Bool.or_self, if_neg, Bool.false_eq_true, not_false_iff]
  calc (pathSegs p).foldl resolveStep (some v)
      = (((pathSegs p).take i) ++ ((pathSegs p).drop i)).foldl resolveStep (some v) := by
        rw [List.take_append_drop]
    _ = ((pathSegs p).drop i).foldl resolveStep
          (((pathSegs p).take i).foldl resolveStep (some v)) := by
        rw [List.foldl_append]
    _ = none := by rw [hi]; exact foldl_resolveStep_none _

/-- C5 witness: the amended theorem applied at the root with key a bound
to 1 and the path "a.b", whose two-segment prefix resolves to absent. -/
theorem getNestedValue_absent_propagation_witness :
    ("a.b" ≠ "" ∧ jsTruthy (.obj [("a", .num 1)]) = true ∧
      ∃ i, ((pathSegs "a.b").take i).foldl resolveStep
        (some (.obj [("a", .num 1)])) = none) ∧
    getNestedValue (.obj [("a", .num 1)]) "a.b" = none :=
  ⟨⟨by decide, rfl, ⟨2, rfl⟩⟩,
    (getNestedValue_absent_propagation (.obj [("a", .num 1)]) "a.b"
      (by decide) rfl ⟨2, rfl⟩).1⟩

/-- C9: after the sweep runs, no entry strictly expired at the sweep
clock remains in the cache, for every cache state and clock value. -/
theorem clearExpiredCache_no_expired (c : Cache) (now : ℚ) (u : String) (e : CacheEntry)
    (h : (u, e) ∈ clearExpiredCache c now) : ¬ e.expiresAt < now := by
  have h2 := (List.mem_filter.mp h).2
  simpa using h2

/-- C9 witness: an unexpired entry survives the sweep and the theorem
yields that it is not expired. -/
theorem clearExpiredCache_no_expired_witness :
    ("u", (⟨.null, 0, 5⟩ : CacheEntry)) ∈
      clearExpiredCache [("u", ⟨.null, 0, 5⟩)] 3 ∧
    ¬ (⟨.null, 0, 5⟩ : CacheEntry).expiresAt < 3 := by
  have hm : ("u", (⟨.null, 0, 5⟩ : CacheEntry)) ∈
      clearExpiredCache [("u", ⟨.null, 0, 5⟩)] 3 := by
    have hc : clearExpiredCache [("u", (⟨.null, 0, 5⟩ : CacheEntry))] 3
        = [("u", ⟨.null, 0, 5⟩)] := by
      norm_num [clearExpiredCache]
    rw [hc]
    exact List.mem_cons_self _ _
  exact ⟨hm, clearExpiredCache_no_expired _ _ _ _ hm⟩

/-- C2: the adaptive cache duration computed by the widget container
equals the four-branch formula of the specification for every skip flag
and every refresh interval, and takes the documented values at 20, 60
and 300 seconds, and 0 whenever the skip flag is set. -/
theorem adaptiveCacheDuration_spec (skipCache : Bool) (r : ℚ) :
    adaptiveCacheDuration skipCache r = specAdaptiveDuration skipCache r ∧
    adaptiveCacheDuration false 20 = 5 ∧
    adaptiveCacheDuration false 60 = 15 ∧
    adaptiveCacheDuration false 300 = 30 ∧
    adaptiveCacheDuration true r = 0 := by
  refine ⟨?_, ?_, ?_, ?_, rfl⟩
  · unfold adaptiveCacheDuration specAdaptiveDuration
    split_ifs with h1 h2 h3 h4 h5 h6 h7 <;> try rfl
    all_goals (exfalso; push_neg at *; try linarith)
    linarith [h4 h2]
  · have : (5 : ℚ) ≤ 20 / 3 := by norm_num
    norm_num [adaptiveCacheDuration, min_eq_left this]
  · norm_num [adaptiveCacheDuration]
  · have : (30 : ℚ) ≤ 300 / 4 := by norm_num
    norm_num [adaptiveCacheDuration, min_eq_left this]

/-- C3 counterexample: an entry stored at time 0 with a one-second
duration expires at 1000 ms; at time 1000, when exactly one second has
elapsed, the lookup still returns the value rather than absent, because
eviction requires now to be strictly past expiresAt. -/
theorem cache_expiry_boundary_counterexample :
    (getCachedData (setCachedData [] "u" (.num 1) (1 * 1000) 0) "u" 1000).1
      = some (.num 1) ∧
    (getCachedData (setCachedData [] "u" (.num 1) (1 * 1000) 0) "u" 1000).1 ≠ none := by
  have h1 : (getCachedData (setCachedData [] "u" (.num 1) (1 * 1000) 0) "u" 1000).1
      = some (.num 1) := by
    norm_num [getCachedData, setCachedData, assocGet, assocSet]
  refine ⟨h1, ?_⟩
  rw [h1]
  exact fun hcon => Option.noConfusion hcon

/-- C3 amended: set followed immediately by get returns the stored value,
and once strictly more than D seconds have elapsed since the set, get
returns absent and that lookup evicts the entry; at exactly D seconds the
entry still hits. -/
theorem cache_set_get_roundtrip (c : Cache) (u : String) (V : JSONValue) (D t tl : ℚ)
    (hD : 0 < D) (h' : t + D * 1000 < tl) :
    getCachedData (setCachedData c u V (D * 1000) t) u t
      = (some V, setCachedData c u V (D * 1000) t) ∧
    (getCachedData (setCachedData c u V (D * 1000) t) u tl).1 = none ∧
    (getCachedData (setCachedData c u V (D * 1000) t) u tl).2
      = assocDelete (setCachedData c u V (D * 1000) t) u ∧
    assocGet (assocDelete (setCachedData c u V (D * 1000) t) u) u
      = (none : Option CacheEntry) := by
  have hget : assocGet (setCachedData c u V (D * 1000) t) u
      = some ⟨V, t, t + D * 1000⟩ := assocGet_assocSet_self c u _
  have hfresh : ¬ ((⟨V, t, t + D * 1000⟩ : CacheEntry).expiresAt < t) := by
    simp only [CacheEntry.expiresAt]
    nlinarith
  have hstale : (⟨V, t, t + D * 1000⟩ : CacheEntry).expiresAt < tl := by
    simpa only [CacheEntry.expiresAt] using h'
  refine ⟨?_, ?_, ?_, assocGet_assocDelete_self _ u⟩
  · rw [getCachedData, hget]
    simp [hfresh]
  · rw [getCachedData, hget]
    simp [hstale]
  · rw [getCachedData, hget]
    simp [hstale]

/-- C3 witness: the round trip at the empty cache with value 1, duration
two seconds, set at time 0 and looked up again at 2001 ms. -/
theorem cache_set_get_roundtrip_witness :
    ((0 : ℚ) < 2 ∧ (0 : ℚ) + 2 * 1000 < 2001) ∧
    (getCachedData (setCachedData [] "u" (.num 1) (2 * 1000) 0) "u" 0
      = (some (.num 1), setCachedData [] "u" (.num 1) (2 * 1000) 0) ∧
    (getCachedData (setCachedData [] "u" (.num 1) (2 * 1000) 0) "u" 2001).1 = none ∧
    (getCachedData (setCachedData [] "u" (.num 1) (2 * 1000) 0) "u" 2001).2
      = assocDelete (setCachedData [] "u" (.num 1) (2 * 1000) 0) "u" ∧
    assocGet (assocDelete (setCachedData [] "u" (.num 1) (2 * 1000) 0) "u") "u"
      = (none : Option CacheEntry)) :=
  ⟨⟨by norm_num, by norm_num⟩,
    cache_set_get_roundtrip [] "u" (.num 1) 2 0 2001 (by norm_num) (by norm_num)⟩

/-- C10: with a non-empty mapping list and any widget kind, missing data
(undefined) and every falsy data value (null, false, 0, the empty string)
transform to the empty list: no row of absent values is produced. -/
theorem transformAPIData_falsy_data (fields : List FieldMapping) (kind : String)
    (d : JSONValue) (_hf : fields ≠ []) (hd : jsTruthy d = false) :
    transformAPIData (some d) fields kind = [] ∧
    transformAPIData none fields kind = [] := by
  constructor
  · simp [transformAPIData, hd]
  · rfl

/-- C10 witness: the falsy value 0 with one selected field and the table
kind transforms to the empty list, as does undefined. -/
theorem transformAPIData_falsy_data_witness :
    ([(⟨"x", "X"⟩ : FieldMapping)] ≠ [] ∧ jsTruthy (.num 0) = false) ∧
    transformAPIData (some (.num 0)) [⟨"x", "X"⟩] "table" = [] ∧
    transformAPIData none [⟨"x", "X"⟩] "table" = [] := by
  refine ⟨⟨by simp, by decide⟩, ?_, ?_⟩
  · exact (transformAPIData_falsy_data [⟨"x", "X"⟩] "table" (.num 0) (by simp) (by decide)).1
  · exact (transformAPIData_falsy_data [⟨"x", "X"⟩] "table" (.num 0) (by simp) (by decide)).2

/-- C1 counterexample: the payload 0 stored fresh under url u is an
unexpired cache entry, yet fetchFromAPI under useCache does not return
it as a cached success: the source guards the hit branch with the
truthiness test on the cached payload, so the falsy payload is treated
as a miss, a network request is issued, and the result carries no
cached-success flag. -/
theorem fetchFromAPI_falsy_hit_counterexample :
    assocGet [("u", (⟨.num 0, 0, 5000⟩ : CacheEntry))] "u"
      = some ⟨.num 0, 0, 5000⟩ ∧
    (1000 : ℚ) ≤ 5000 ∧
    (fetchFromAPI plainErrorNet "u" true 0 [("u", ⟨.num 0, 0, 5000⟩)] 1000).2.2
      = ["u"] ∧
    (fetchFromAPI plainErrorNet "u" true 0 [("u", ⟨.num 0, 0, 5000⟩)] 1000).1.cached
      ≠ some true := by
  refine ⟨rfl, by norm_num, rfl, ?_⟩
  intro hcon
  exact Option.noConfusion hcon

/-- C1 amended: a URL with a stored cache entry whose expiry has not
passed and whose cached payload is truthy makes fetchFromAPI under
useCache return success with the cached payload, a null error and the
cached flag set, leaving the cache unchanged and issuing no network
request; a falsy cached payload is instead treated as a miss by the
truthiness guard and refetched. -/
theorem fetchFromAPI_cache_hit (net : String → FetchOutcome) (url : String)
    (cd : ℚ) (c : Cache) (now : ℚ) (e : CacheEntry)
    (hget : assocGet c url = some e) (hexp : now ≤ e.expiresAt)
    (htruthy : jsTruthy e.data = true) :
    fetchFromAPI net url true cd c now
      = (⟨true, some e.data, none, some true⟩, c, []) := by
  have hlk : getCachedData c url now = (some e.data, c) := by
    rw [getCachedData, hget]
    simp [not_lt.mpr hexp]
  rw [fetchFromAPI]
  simp [hlk, htruthy]

/-- C1 witness: a cache holding url u with the truthy payload 1 and
expiry 5000 looked up at time 1000 hits, and the network oracle is never
consulted. -/
theorem fetchFromAPI_cache_hit_witness :
    (assocGet [("u", (⟨.num 1, 0, 5000⟩ : CacheEntry))] "u"
        = some ⟨.num 1, 0, 5000⟩ ∧ (1000 : ℚ) ≤ 5000 ∧
      jsTruthy (JSONValue.num 1) = true) ∧
    fetchFromAPI (fun _ => .failure "TypeError" "down") "u" true 0
        [("u", ⟨.num 1, 0, 5000⟩)] 1000
      = (⟨true, some (.num 1), none, some true⟩, [("u", ⟨.num 1, 0, 5000⟩)], []) :=
  ⟨⟨rfl, by norm_num, by decide⟩,
    fetchFromAPI_cache_hit (fun _ => .failure "TypeError" "down") "u" 0
      [("u", ⟨.num 1, 0, 5000⟩)] 1000 ⟨.num 1, 0, 5000⟩ rfl (by norm_num) (by decide)⟩

/-- C4: with a non-empty mapping list, array data transforms to exactly
one row per element in input order, built as the specification words it,
so the row count equals the array length; and single-object data with the
chart kind and more than one selected field pivots to one name/value row
per field with the numeric coercion, exactly as the specification words
it (a non-numeric or missing resolved value coercing to 0). -/
theorem transformAPIData_branch_rules (fields : List FieldMapping) (kind : String)
    (items : List JSONValue) (fs : List (String × JSONValue)) (hf : fields ≠ []) :
    (transformAPIData (some (.arr items)) fields kind = specTransformArray items fields ∧
      (transformAPIData (some (.arr items)) fields kind).length = items.length) ∧
    (1 < fields.length →
      transformAPIData (some (.obj fs)) fields "chart" = specChartPivot (.obj fs) fields) := by
  have hne : fields.isEmpty = false := by
    simpa [List.isEmpty_iff] using hf
  refine ⟨⟨?_, ?_⟩, fun hlen => ?_⟩
  · simp [transformAPIData, jsTruthy, hne, specTransformArray, buildRow]
  · simp [transformAPIData, jsTruthy, hne]
  · simp [transformAPIData, jsTruthy, hne, hlen, specChartPivot, numCoerce]

/-- C4 witness: a two-element array with one selected field, and a flat
two-rate object pivoted for a chart with two selected fields. -/
theorem transformAPIData_branch_rules_witness :
    ([(⟨"BTC", "BTC"⟩ : FieldMapping), ⟨"ETH", "ETH"⟩] ≠ [] ∧
      1 < [(⟨"BTC", "BTC"⟩ : FieldMapping), ⟨"ETH", "ETH"⟩].length) ∧
    transformAPIData (some (.arr [.obj [("BTC", .num 1)], .obj [("BTC", .num 2)]]))
        [⟨"BTC", "BTC"⟩, ⟨"ETH", "ETH"⟩] "table"
      = specTransformArray [.obj [("BTC", .num 1)], .obj [("BTC", .num 2)]]
          [⟨"BTC", "BTC"⟩, ⟨"ETH", "ETH"⟩] ∧
    (transformAPIData (some (.arr [.obj [("BTC", .num 1)], .obj [("BTC", .num 2)]]))
        [⟨"BTC", "BTC"⟩, ⟨"ETH", "ETH"⟩] "table").length
      = [JSONValue.obj [("BTC", .num 1)], .obj [("BTC", .num 2)]].length ∧
    transformAPIData (some (.obj [("BTC", .num 50000), ("ETH", .num 3000)]))
        [⟨"BTC", "BTC"⟩, ⟨"ETH", "ETH"⟩] "chart"
      = specChartPivot (.obj [("BTC", .num 50000), ("ETH", .num 3000)])
          [⟨"BTC", "BTC"⟩, ⟨"ETH", "ETH"⟩] := by
  have h := transformAPIData_branch_rules [⟨"BTC", "BTC"⟩, ⟨"ETH", "ETH"⟩] "table"
    [.obj [("BTC", .num 1)], .obj [("BTC", .num 2)]]
    [("BTC", .num 50000), ("ETH", .num 3000)] (by simp)
  exact ⟨⟨by simp, by norm_num⟩, h.1.1, h.1.2, h.2 (by norm_num)⟩

/-- C6 counterexample: an empty array reached as an object child is an
array value encountered during exploration, yet explore emits no
synthetic Array(0) descriptor for its path at all: the only descriptor at
that path is the braced-type one from the parent loop. -/
theorem explore_empty_array_counterexample :
    exploreJSONPaths (.obj [("a", .arr [])]) "" 5
      = [⟨"a", .str "\x7barray\x7d", "array", none⟩] ∧
    JSONValue.str "\x7barray\x7d" ≠ JSONValue.str "Array(0)" := by
  refine ⟨rfl, fun hcon => ?_⟩
  injection hcon with h2
  exact absurd h2 (by decide)

/-- C6 amended: for every non-empty array encountered within the depth
bound (positive remaining fuel), explore emits exactly one synthetic
descriptor at the head, carrying the Array(N) label with N the length and
the array type, and the rest of the output comes from recursing into
element 0 only: the output does not depend on the later elements beyond
their number.  Empty arrays yield no synthetic descriptor. -/
theorem explore_array_first_element (fuel : Nat) (P : String) (x : JSONValue)
    (r rl : List JSONValue) (h : r.length = rl.length) :
    exploreFuel (fuel + 1) (.arr (x :: r)) P
      = ⟨P, .str ("Array(" ++ toString (r.length + 1) ++ ")"), "array", some x⟩
          :: exploreFuel fuel x (P ++ "[0]") ∧
    exploreFuel (fuel + 1) (.arr (x :: r)) P = exploreFuel (fuel + 1) (.arr (x :: rl)) P := by
  constructor
  · rfl
  · show _ = exploreFuel (fuel + 1) (.arr (x :: rl)) P
    rw [exploreFuel, exploreFuel, h]

/-- C6 witness: two arrays of length two sharing first element 1 explore
identically, to the synthetic descriptor followed by the exploration of
element 0. -/
theorem explore_array_first_element_witness :
    ([JSONValue.null].length = [JSONValue.num 7].length) ∧
    (exploreFuel 2 (.arr [.num 1, .null]) "p"
        = ⟨"p", .str ("Array(" ++ toString ([JSONValue.null].length + 1) ++ ")"),
            "array", some (.num 1)⟩
            :: exploreFuel 1 (.num 1) ("p" ++ "[0]") ∧
      exploreFuel 2 (.arr [.num 1, .null]) "p"
        = exploreFuel 2 (.arr [.num 1, .num 7]) "p") :=
  ⟨rfl, explore_array_first_element 1 "p" (.num 1) [.null] [.num 7] rfl⟩

/-- A message of the form HTTP status: text is never the empty string. -/
theorem http_message_ne_empty (s t u : String) :
    (("HTTP " ++ s ++ t ++ u) == "") = false := by
  refine beq_eq_false_iff_ne.mpr (fun hcon => ?_)
  have hl := congrArg String.length hcon
  rw [String.length_append, String.length_append, String.length_append] at hl
  have h5 : ("HTTP " : String).length = 5 := rfl
  have h0 : ("" : String).length = 0 := rfl
  omega

/-- The network part issues the direct request, and the proxied request
exactly when it retries: one or two requests, in that order. -/
theorem fetchViaNetwork_requests (net : String → FetchOutcome) (url : String)
    (useCache : Bool) (cd : ℚ) (c : Cache) (now : ℚ) :
    (fetchViaNetwork net url useCache cd c now).2.2 = [url] ∨
    (fetchViaNetwork net url useCache cd c now).2.2 = [url, CORS_PROXY ++ url] := by
  rw [fetchViaNetwork]
  cases attemptFetch net url with
  | ok d => left; rfl
  | error p =>
      obtain ⟨name, msg⟩ := p
      dsimp only
      by_cases hcl : (strContains msg "CORS" || name == "TypeError") = true
      · rw [if_pos hcl]
        cases attemptFetch net (CORS_PROXY ++ url) with
        | ok d => right; rfl
        | error q => obtain ⟨n2, m2⟩ := q; right; rfl
      · rw [if_neg hcl]; left; rfl

/-- A non-2xx direct response whose embedded message does not mention
CORS makes the network part fail with that message and no retry. -/
theorem fetchViaNetwork_non2xx (net : String → FetchOutcome) (url : String)
    (useCache : Bool) (cd : ℚ) (c : Cache) (now : ℚ) (resp : HttpResponse)
    (hresp : net url = .success resp) (hok : resp.ok = false)
    (hmsg : strContains ("HTTP " ++ toString resp.status ++ ": " ++ resp.statusText)
      "CORS" = false) :
    fetchViaNetwork net url useCache cd c now
      = (⟨false, none,
            some ("HTTP " ++ toString resp.status ++ ": " ++ resp.statusText), none⟩,
          c, [url]) := by
  have haf : attemptFetch net url
      = .error ("Error", "HTTP " ++ toString resp.status ++ ": " ++ resp.statusText) := by
    rw [attemptFetch, hresp]
    dsimp only
    rw [hok]
    rfl
  have hcond : (strContains ("HTTP " ++ toString resp.status ++ ": " ++ resp.statusText) "CORS"
      || (("Error" : String) == "TypeError")) = false := by
    rw [hmsg]
    rfl
  have hne := http_message_ne_empty (toString resp.status) ": " resp.statusText
  rw [fetchViaNetwork, haf]
  dsimp only
  simp only [hcond, hne, Bool.false_eq_true, if_false]

/-- The network part retries only when the first attempt failed with a
message containing CORS or a TypeError. -/
theorem fetchViaNetwork_retry_classified (net : String → FetchOutcome) (url : String)
    (useCache : Bool) (cd : ℚ) (c : Cache) (now : ℚ)
    (h : (fetchViaNetwork net url useCache cd c now).2.2 = [url, CORS_PROXY ++ url]) :
    ∃ name msg, attemptFetch net url = .error (name, msg) ∧
      (strContains msg "CORS" = true ∨ name = "TypeError") := by
  rw [fetchViaNetwork] at h
  cases haf : attemptFetch net url with
  | ok d =>
      rw [haf] at h
      simp at h
  | error p =>
      obtain ⟨name, msg⟩ := p
      rw [haf] at h
      dsimp only at h
      by_cases hcl : (strContains msg "CORS" || name == "TypeError") = true
      · refine ⟨name, msg, rfl, ?_⟩
        rcases Bool.or_eq_true_iff.mp hcl with h1 | h1
        · exact Or.inl h1
        · exact Or.inr (beq_iff_eq.mp h1)
      · rw [if_neg hcl] at h
        simp at h

/-- C7 counterexample: a direct response with the non-2xx status 403 and
status text mentioning CORS is not treated as a failure with no retry:
the thrown HTTP error message contains CORS, so the catch block retries
through the proxy, and here the proxied request even turns the call into
a success with two network requests issued. -/
theorem fetch_non2xx_retry_counterexample :
    corsStatusNet "https://x.test/api"
      = .success ⟨false, 403, "CORS Forbidden", none⟩ ∧
    (fetchFromAPI corsStatusNet "https://x.test/api" false 0 [] 0).1.success = true ∧
    (fetchFromAPI corsStatusNet "https://x.test/api" false 0 [] 0).2.2
      = ["https://x.test/api", CORS_PROXY ++ "https://x.test/api"] :=
  ⟨rfl, rfl, rfl⟩

/-- The retry policy stated for the network part alone: its three
conjuncts hold for every oracle, flag, cache and clock. -/
theorem fetchViaNetwork_policy (net : String → FetchOutcome) (url : String)
    (useCache : Bool) (cd : ℚ) (c₁ : Cache) (now : ℚ) :
    ((fetchViaNetwork net url useCache cd c₁ now).2.2 = [] ∨
     (fetchViaNetwork net url useCache cd c₁ now).2.2 = [url] ∨
     (fetchViaNetwork net url useCache cd c₁ now).2.2 = [url, CORS_PROXY ++ url]) ∧
    (∀ resp : HttpResponse, net url = .success resp → resp.ok = false →
      strContains ("HTTP " ++ toString resp.status ++ ": " ++ resp.statusText) "CORS"
        = false →
      (fetchViaNetwork net url useCache cd c₁ now).2.2 ≠ [] →
      (fetchViaNetwork net url useCache cd c₁ now).1.success = false ∧
      (fetchViaNetwork net url useCache cd c₁ now).1.error
        = some ("HTTP " ++ toString resp.status ++ ": " ++ resp.statusText) ∧
      (fetchViaNetwork net url useCache cd c₁ now).2.2 = [url]) ∧
    ((fetchViaNetwork net url useCache cd c₁ now).2.2 = [url, CORS_PROXY ++ url] →
      ∃ name msg, attemptFetch net url = .error (name, msg) ∧
        (strContains msg "CORS" = true ∨ name = "TypeError")) := by
  refine ⟨?_, fun resp hresp hok hmsg _ => ?_, ?_⟩
  · rcases fetchViaNetwork_requests net url useCache cd c₁ now with h | h
    · exact Or.inr (Or.inl h)
    · exact Or.inr (Or.inr h)
  · rw [fetchViaNetwork_non2xx net url useCache cd c₁ now resp hresp hok hmsg]
    exact ⟨rfl, rfl, rfl⟩
  · exact fetchViaNetwork_retry_classified net url useCache cd c₁ now

/-- C7 amended: every call issues no request, the direct request alone,
or the direct then the proxied request, so the proxy fallback is the only
retry and happens at most once; a non-2xx response is treated as a
failure whose message embeds the status code and text, with no retry,
whenever that composed message does not itself contain CORS; and a retry
happens only when the first attempt threw an error whose message contains
CORS or whose name is TypeError, which includes non-2xx responses whose
status text mentions CORS, since classification is by message content. -/
theorem fetch_retry_policy (net : String → FetchOutcome) (url : String)
    (useCache : Bool) (cd : ℚ) (c : Cache) (now : ℚ) :
    ((fetchFromAPI net url useCache cd c now).2.2 = [] ∨
     (fetchFromAPI net url useCache cd c now).2.2 = [url] ∨
     (fetchFromAPI net url useCache cd c now).2.2 = [url, CORS_PROXY ++ url]) ∧
    (∀ resp : HttpResponse, net url = .success resp → resp.ok = false →
      strContains ("HTTP " ++ toString resp.status ++ ": " ++ resp.statusText) "CORS"
        = false →
      (fetchFromAPI net url useCache cd c now).2.2 ≠ [] →
      (fetchFromAPI net url useCache cd c now).1.success = false ∧
      (fetchFromAPI net url useCache cd c now).1.error
        = some ("HTTP " ++ toString resp.status ++ ": " ++ resp.statusText) ∧
      (fetchFromAPI net url useCache cd c now).2.2 = [url]) ∧
    ((fetchFromAPI net url useCache cd c now).2.2 = [url, CORS_PROXY ++ url] →
      ∃ name msg, attemptFetch net url = .error (name, msg) ∧
        (strContains msg "CORS" = true ∨ name = "TypeError")) := by
  rcases hlk : (if useCache then getCachedData c url now else (none, c)) with ⟨o, c₁⟩
  cases o with
  | some d =>
      by_cases htr : jsTruthy d = true
      · have hfetch : fetchFromAPI net url useCache cd c now
            = (⟨true, some d, none, some true⟩, c₁, []) := by
          rw [fetchFromAPI, hlk]
          dsimp only
          rw [htr]
          rfl
        refine ⟨Or.inl (by rw [hfetch]), fun resp _ _ _ hne => ?_, fun h2 => ?_⟩
        · exact absurd (by rw [hfetch]) hne
        · rw [hfetch] at h2
          exact absurd h2 (by simp)
      · have hfetch : fetchFromAPI net url useCache cd c now
            = fetchViaNetwork net url useCache cd c₁ now := by
          rw [fetchFromAPI, hlk]
          dsimp only
          rw [Bool.not_eq_true] at htr
          rw [htr]
          rfl
        rw [hfetch]
        exact fetchViaNetwork_policy net url useCache cd c₁ now
  | none =>
      have hfetch : fetchFromAPI net url useCache cd c now
          = fetchViaNetwork net url useCache cd c₁ now := by
        rw [fetchFromAPI, hlk]
      rw [hfetch]
      exact fetchViaNetwork_policy net url useCache cd c₁ now

/-- C7 witness: on the always-404 network the call fails with the
embedded message HTTP 404: Not Found and issues only the direct
request. -/
theorem fetch_retry_policy_witness :
    (fetchFromAPI plainErrorNet "u" false 0 [] 0).1.success = false ∧
    (fetchFromAPI plainErrorNet "u" false 0 [] 0).1.error
      = some ("HTTP " ++ toString 404 ++ ": " ++ "Not Found") ∧
    (fetchFromAPI plainErrorNet "u" false 0 [] 0).2.2 = ["u"] :=
  (fetch_retry_policy plainErrorNet "u" false 0 [] 0).2.1
    ⟨false, 404, "Not Found", none⟩ rfl rfl rfl (by decide)
